import Mathlib

/-!
discount-itch: retrying fetch and paginated collection

A shallow embedding of `page.go` and `category.go` (package `ditch`).

The program talks to the network, prints diagnostics and sleeps.  These
effects are made explicit: every function takes the log of effects performed
so far (`World`) and returns the extended log.  The remote side is a
`Transport`: it decides the outcome of the `n`-th `http.Get` of the run for
the URL asked.
-/

namespace Ditch

/-! ## Go runtime values -/

/-- A Go `error` value, identified by the text `Error()` yields. -/
structure GoError where
  msg : String
  deriving DecidableEq

/-- The `Body` of an `http.Response`: what `io.ReadAll` hands back for it. -/
structure Body where
  data : String
  readErr : Option GoError
  deriving DecidableEq

/-- The fields of `http.Response` the program looks at. -/
structure Response where
  StatusCode : Int
  Body : Body
  deriving DecidableEq

/-- What one `http.Get` comes back with: a transport error or a response. -/
inductive Outcome where
  | fail (err : GoError)
  | resp (r : Response)
  deriving DecidableEq

/-- Observable effects, in the order they happen. -/
inductive Event where
  | get (url : String)
  | print (text : String)
  | close
  | sleep (seconds : Nat)
  deriving DecidableEq

/-- The effects performed so far. -/
abbrev World := List Event

/-- The remote side: outcome of request number `n` (counted from 0 over the
whole run) when it asks for `url`. -/
abbrev Transport := Nat → String → Outcome

/-- Number of `http.Get` calls recorded in a log. -/
def requests (w : World) : Nat :=
  w.countP fun e => match e with
    | .get _ => true
    | _ => false

/-- Number of `time.Sleep` calls recorded in a log. -/
def sleeps (w : World) : Nat :=
  w.countP fun e => match e with
    | .sleep _ => true
    | _ => false

/-- The URLs requested in a log, oldest first. -/
def requestedURLs (w : World) : List String :=
  w.filterMap fun e => match e with
    | .get u => some u
    | _ => none

/-- The call `http.Get(url)`: the remote side answers, the request is logged. -/
def httpGet (net : Transport) (url : String) (w : World) : Outcome × World :=
  (net (requests w) url, w ++ [.get url])

/-- The call `io.ReadAll(resp.Body)`. -/
def ioReadAll (b : Body) : String × Option GoError :=
  (b.data, b.readErr)

/-- The verb `%d` of package `fmt` applied to an `int`. -/
def fmtD (n : Int) : String :=
  toString n

/-- The call `strings.HasPrefix(s, p)`. -/
def HasPrefix (s p : String) : Bool :=
  p.data.isPrefixOf s.data

/-! ## category.go -/

abbrev Category := String

def Games : Category := "games"

def Categories : List Category := [Games]

/-! ## page.go -/

def hostname : String := "https://itch.io"

def onsaleParams : String := "/on-sale?format=json&page"

def maxRetries : Nat := 5

def maxItems : Int := 36

/-- Text printed before a retry. -/
def retryNotice (url : String) : String :=
  "Failed to fetch data from " ++ url ++ ". Status code 429. Retrying in 2 seconds...\n"

/-- Error built for a status that is neither 200 nor 429. -/
def statusError (url : String) (status : Int) : GoError :=
  ⟨"Failed to fetch data from " ++ url ++ ". Status code " ++ fmtD status ++ ", "⟩

/-- Error built after the loop of `fetchDataWithRetry`. -/
def exhaustedError (url : String) : GoError :=
  ⟨"Failed to fetch data from " ++ url ++ " after " ++ fmtD maxRetries ++ " retries"⟩

/-- The loop `for retries := 0; retries < maxRetries; retries++` of
`fetchDataWithRetry`, entered with the counter at `retries`, followed by the
statement after the loop.  `(nil, err)` is `.error err` and `(resp, nil)` is
`.ok resp`. -/
def fetchLoop (net : Transport) (url : String) (retries : Nat) (w : World) :
    Except GoError Response × World :=
  if retries < maxRetries then
    match httpGet net url w with
    | (.fail err, w1) => (.error err, w1)
    | (.resp resp, w1) =>
      if resp.StatusCode = 429 ∧ retries < maxRetries - 1 then
        fetchLoop net url (retries + 1)
          (w1 ++ [.print (retryNotice url), .close, .sleep 2])
      else if resp.StatusCode ≠ 200 ∧ resp.StatusCode ≠ 429 then
        (.error (statusError url resp.StatusCode), w1 ++ [.close])
      else
        (.ok resp, w1)
  else
    (.error (exhaustedError url), w)
termination_by maxRetries - retries
decreasing_by simp_wf; omega

def fetchDataWithRetry (net : Transport) (url : String) (w : World) :
    Except GoError Response × World :=
  fetchLoop net url 0 w

def getJSON (net : Transport) (category : String) (page : Int) (w : World) :
    (String × Option GoError) × World :=
  let url := hostname ++ "/" ++ category ++ onsaleParams ++ "=" ++ fmtD page
  match fetchDataWithRetry net url w with
  | (.error err, w1) => (("", some err), w1)
  | (.ok resp, w1) =>
    match ioReadAll resp.Body with
    | (_, some err) => (("", some err), w1 ++ [.close])
    | (body, none) => ((body, none), w1 ++ [.close])

def getSales (net : Transport) (link : String) (w : World) :
    (String × Option GoError) × World :=
  let url := hostname ++ link
  match fetchDataWithRetry net url w with
  | (.error err, w1) => (("", some err), w1)
  | (.ok resp, w1) =>
    match ioReadAll resp.Body with
    | (_, some err) => (("", some err), w1 ++ [.close])
    | (body, none) => ((body, none), w1 ++ [.close])

def getGame (net : Transport) (link : String) (w : World) :
    (String × Option GoError) × World :=
  let url :=
    if !HasPrefix link "http://" && !HasPrefix link "https://" then hostname ++ link
    else link
  match fetchDataWithRetry net url w with
  | (.error err, w1) => (("", some err), w1)
  | (.ok resp, w1) =>
    match ioReadAll resp.Body with
    | (_, some err) => (("", some err), w1 ++ [.close])
    | (body, none) => ((body, none), w1 ++ [.close])

/-- The `Content` type is declared in a file that is not part of the sources
at hand; `getContent` uses its zero value `Content\x7b\x7d`, its field
`NumItems` and its method `FromJSON`, which fills the receiver from a JSON
text and returns an error.  They are taken as parameters. -/
structure ContentDecl (Content : Type) where
  zero : Content
  NumItems : Content → Int
  FromJSON : Content → String → Content × Option GoError

/-- Text printed by `getContent` when `getJSON` fails. -/
def getJSONNotice (category : String) (page : Int) (err : GoError) : String :=
  "\n\t\tFunction: getContent::getJSON\n\t\tContext:\n\t\t- category: " ++ category ++
  "\n\t\t- page:     " ++ fmtD page ++ "\n\n\t\tError: " ++ err.msg ++ "\n\t\t"

/-- Text printed by `getContent` when `content.FromJSON` fails. -/
def fromJSONNotice (category : String) (page : Int) (json : String) (err : GoError) : String :=
  "\n\t\tFunction: getContent::content.FromJSON\n\t\tContext:\n\t\t- category: " ++ category ++
  "\n\t\t- page:     " ++ fmtD page ++ "\n\t\t- json:\t    " ++ json ++
  "\n\n\t\tError: " ++ err.msg ++ "\n\t\t"

/-- The slice behind `list` is passed in and the updated slice is returned
next to the two results `(isLastPage, err)`. -/
def getContent {Content : Type} (D : ContentDecl Content) (net : Transport)
    (category : String) (page : Int) (list : List Content) (w : World) :
    (Bool × Option GoError) × List Content × World :=
  let isLastPage := false
  match getJSON net category page w with
  | ((_, some err), w1) =>
    ((isLastPage, some err), list, w1 ++ [.print (getJSONNotice category page err)])
  | ((json, none), w1) =>
    match D.FromJSON D.zero json with
    | (_, some err) =>
      ((isLastPage, some err), list, w1 ++ [.print (fromJSONNotice category page json err)])
    | (content, none) =>
      let list := list ++ [content]
      let isLastPage := decide (D.NumItems content < maxItems)
      ((isLastPage, none), list, w1)

def GetGamesContent {Content : Type} (D : ContentDecl Content) (net : Transport)
    (page : Int) (list : List Content) (w : World) :
    (Bool × Option GoError) × List Content × World :=
  getContent D net "games" page list w

/-! ## Vocabulary of the statements -/

/-- The outcome is a response with status 429. -/
def answered429 (o : Outcome) : Bool :=
  match o with
  | .resp r => r.StatusCode == 429
  | .fail _ => false

/-- What one attempt that is answered by 429 and retried adds to the log. -/
def retryBlock (url : String) : World :=
  [.get url, .print (retryNotice url), .close, .sleep 2]

/-- The log of `k` retried attempts in a row. -/
def retried (url : String) : Nat → World
  | 0 => []
  | k + 1 => retryBlock url ++ retried url k

/-! ## Concrete remote sides -/

/-- A remote side that plays the outcomes listed, one per request, and
answers 200 with an empty body once the list is used up. -/
def scripted (outcomes : List Outcome) : Transport :=
  fun n _ => outcomes.getD n (.resp ⟨200, ⟨"", none⟩⟩)

/-- A response with the status and body given, whose body reads without error. -/
def reply (status : Int) (body : String) : Outcome :=
  .resp ⟨status, ⟨body, none⟩⟩

/-- A remote side that answers every request with 429. -/
def always429 : Transport :=
  fun _ _ => reply 429 "Too Many Requests"

/-- Calls of `getContent` for the pages listed, in that order, each on the
slice and the log the call before left; the results of the calls come first. -/
def getContentEach {Content : Type} (D : ContentDecl Content) (net : Transport)
    (category : String) :
    List Int → List Content → World → List (Bool × Option GoError) × List Content × World
  | [], list, w => ([], list, w)
  | page :: pages, list, w =>
    match getContent D net category page list w with
    | (r, list1, w1) =>
      match getContentEach D net category pages list1 w1 with
      | (rs, list2, w2) => (r :: rs, list2, w2)

/-- Each of the pages listed, fetched in that order from log `w` on, comes
back without error and `FromJSON` decodes its body without error; `cs` lists
the decoded records. -/
def PagesDecodeTo {Content : Type} (D : ContentDecl Content) (net : Transport)
    (category : String) : List Int → World → List Content → Prop
  | [], _, cs => cs = []
  | page :: pages, w, cs =>
    ∃ (json : String) (w1 : World) (c : Content) (rest : List Content),
      getJSON net category page w = ((json, none), w1) ∧
      D.FromJSON D.zero json = (c, none) ∧
      cs = c :: rest ∧
      PagesDecodeTo D net category pages w1 rest

/-- Reads a body made of decimal digits only as a number. -/
def readCount (json : String) : Option Int :=
  match json.data with
  | [] => none
  | cs => cs.foldl (fun acc c =>
      match acc with
      | some n => if c.isDigit then some (n * 10 + (c.toNat - 48 : Nat)) else none
      | none => none) (some 0)

/-- A small instance of the declarations of `Content`: the record is its item
count, written in the body as a decimal number. -/
def countOnly : ContentDecl Int where
  zero := 0
  NumItems := fun c => c
  FromJSON := fun c json =>
    match readCount json with
    | some n => (n, none)
    | none => (c, some ⟨"invalid character looking for beginning of value"⟩)

end Ditch

namespace Ditch

/-! ## Counting in logs -/

theorem requests_append (a b : World) : requests (a ++ b) = requests a + requests b := by
  simp [requests, List.countP_append]

theorem sleeps_append (a b : World) : sleeps (a ++ b) = sleeps a + sleeps b := by
  simp [sleeps, List.countP_append]

theorem requestedURLs_append (a b : World) :
    requestedURLs (a ++ b) = requestedURLs a ++ requestedURLs b := by
  simp [requestedURLs, List.filterMap_append]

theorem requests_retryBlock (url : String) : requests (retryBlock url) = 1 := by
  simp [requests, retryBlock, List.countP_cons]

theorem sleeps_retryBlock (url : String) : sleeps (retryBlock url) = 1 := by
  simp [sleeps, retryBlock, List.countP_cons]

theorem requests_get (url : String) (tail : World) (h : tail = [] ∨ tail = [.close]) :
    requests (.get url :: tail) = 1 := by
  rcases h with h | h <;> simp [h, requests]

theorem sleeps_get (url : String) (tail : World) (h : tail = [] ∨ tail = [.close]) :
    sleeps (.get url :: tail) = 0 := by
  rcases h with h | h <;> simp [h, sleeps]

theorem requests_retried (url : String) (k : Nat) : requests (retried url k) = k := by
  induction k with
  | zero => simp [retried, requests]
  | succ k ih => rw [retried, requests_append, requests_retryBlock, ih]; omega

theorem sleeps_retried (url : String) (k : Nat) : sleeps (retried url k) = k := by
  induction k with
  | zero => simp [retried, sleeps]
  | succ k ih => rw [retried, sleeps_append, sleeps_retryBlock, ih]; omega

theorem requestedURLs_retried (url : String) (k : Nat) :
    requestedURLs (retried url k) = List.replicate k url := by
  induction k with
  | zero => simp [retried, requestedURLs]
  | succ k ih =>
    rw [retried, requestedURLs_append, ih]
    simp [requestedURLs, retryBlock, List.replicate_succ]

/-- Every sleep in the log of a fetch lasts 2 seconds. -/
theorem sleep_mem_attempts (url : String) (k : Nat) (tail : World) (s : Nat)
    (htail : tail = [] ∨ tail = [.close])
    (h : Event.sleep s ∈ retried url k ++ .get url :: tail) : s = 2 := by
  induction k with
  | zero => rcases htail with ht | ht <;> simp [retried, ht] at h
  | succ k ih =>
    rw [retried, List.append_assoc] at h
    rcases List.mem_append.mp h with h | h
    · simpa [retryBlock] using h
    · exact ih h

/-! ## One turn of the loop -/

theorem fetchLoop_fail (net : Transport) (url : String) (retries : Nat) (w : World)
    (err : GoError) (hr : retries < maxRetries) (h : net (requests w) url = .fail err) :
    fetchLoop net url retries w = (.error err, w ++ [.get url]) := by
  rw [fetchLoop]
  simp [hr, httpGet, h]

theorem fetchLoop_retry (net : Transport) (url : String) (retries : Nat) (w : World)
    (hr : retries < maxRetries - 1) (h : answered429 (net (requests w) url) = true) :
    fetchLoop net url retries w = fetchLoop net url (retries + 1) (w ++ retryBlock url) := by
  have hr2 : retries < maxRetries := by omega
  rw [fetchLoop]
  cases hn : net (requests w) url with
  | fail err => simp [hn, answered429] at h
  | resp r =>
    have hs : r.StatusCode = 429 := by simpa [hn, answered429] using h
    simp [hr, hr2, httpGet, hn, hs, retryBlock]

theorem fetchLoop_status (net : Transport) (url : String) (retries : Nat) (w : World)
    (r : Response) (hr : retries < maxRetries) (h : net (requests w) url = .resp r)
    (h200 : r.StatusCode ≠ 200) (h429 : r.StatusCode ≠ 429) :
    fetchLoop net url retries w =
      (.error (statusError url r.StatusCode), w ++ [.get url, .close]) := by
  rw [fetchLoop]
  simp [hr, httpGet, h, h200, h429]

theorem fetchLoop_ok (net : Transport) (url : String) (retries : Nat) (w : World)
    (r : Response) (hr : retries < maxRetries) (h : net (requests w) url = .resp r)
    (h200 : r.StatusCode = 200) :
    fetchLoop net url retries w = (.ok r, w ++ [.get url]) := by
  rw [fetchLoop]
  simp [hr, httpGet, h, h200]

theorem fetchLoop_last429 (net : Transport) (url : String) (w : World)
    (r : Response) (h : net (requests w) url = .resp r) (h429 : r.StatusCode = 429) :
    fetchLoop net url (maxRetries - 1) w = (.ok r, w ++ [.get url]) := by
  rw [fetchLoop]
  simp [maxRetries, httpGet, h, h429]

/-- Attempts answered by 429 while the counter is below `maxRetries - 1` are
skipped over, each leaving one `retryBlock` in the log. -/
theorem fetchLoop_retried (net : Transport) (url : String) :
    ∀ (k retries : Nat) (w : World), retries + k ≤ maxRetries - 1 →
      (∀ i, i < k → answered429 (net (requests w + i) url) = true) →
      fetchLoop net url retries w = fetchLoop net url (retries + k) (w ++ retried url k) := by
  intro k
  induction k with
  | zero => intro retries w _ _; simp [retried]
  | succ k ih =>
    intro retries w hk h
    have h0 : answered429 (net (requests w) url) = true := by simpa using h 0 (by omega)
    rw [fetchLoop_retry net url retries w (by omega) h0,
      ih (retries + 1) (w ++ retryBlock url) (by omega)]
    · rw [retried, List.append_assoc]
      congr 1
      omega
    · intro i hi
      rw [requests_append, requests_retryBlock]
      have := h (i + 1) (by omega)
      rwa [show requests w + 1 + i = requests w + (i + 1) by omega]

/-- Every run of the loop is some retried attempts followed by one last
request, after which at most the body is closed. -/
theorem fetchLoop_shape (net : Transport) (url : String) :
    ∀ (d retries : Nat) (w : World), retries + d = maxRetries - 1 →
      ∃ (k : Nat) (tail : World), k ≤ d ∧
        (∀ i, i < k → answered429 (net (requests w + i) url) = true) ∧
        (fetchLoop net url retries w).2 = w ++ retried url k ++ (.get url :: tail) ∧
        (tail = [] ∨ tail = [.close]) := by
  intro d
  induction d with
  | zero =>
    intro retries w hd
    have hr : retries = maxRetries - 1 := by omega
    subst hr
    refine ⟨0, ?_⟩
    cases hn : net (requests w) url with
    | fail err =>
      exact ⟨[], le_refl _, by simp, by
        rw [fetchLoop_fail net url _ w err (by decide) hn]; simp [retried], Or.inl rfl⟩
    | resp r =>
      by_cases h429 : r.StatusCode = 429
      · exact ⟨[], le_refl _, by simp, by
          rw [fetchLoop_last429 net url w r hn h429]; simp [retried], Or.inl rfl⟩
      · by_cases h200 : r.StatusCode = 200
        · exact ⟨[], le_refl _, by simp, by
            rw [fetchLoop_ok net url _ w r (by decide) hn h200]; simp [retried], Or.inl rfl⟩
        · exact ⟨[.close], le_refl _, by simp, by
            rw [fetchLoop_status net url _ w r (by decide) hn h200 h429]; simp [retried],
            Or.inr rfl⟩
  | succ d ih =>
    intro retries w hd
    have hr : retries < maxRetries := by omega
    cases hn : net (requests w) url with
    | fail err =>
      exact ⟨0, [], by omega, by simp, by
        rw [fetchLoop_fail net url _ w err hr hn]; simp [retried], Or.inl rfl⟩
    | resp r =>
      by_cases h429 : r.StatusCode = 429
      · have h0 : answered429 (net (requests w) url) = true := by simp [hn, answered429, h429]
        obtain ⟨k, tail, hk, hall, htr, htail⟩ := ih (retries + 1) (w ++ retryBlock url) (by omega)
        refine ⟨k + 1, tail, by omega, ?_, ?_, htail⟩
        · intro i hi
          cases i with
          | zero => simpa using h0
          | succ j =>
            have := hall j (by omega)
            rw [requests_append, requests_retryBlock] at this
            rwa [show requests w + (j + 1) = requests w + 1 + j by omega]
        · rw [fetchLoop_retry net url retries w (by omega) h0, htr, retried]
          simp [List.append_assoc]
      · by_cases h200 : r.StatusCode = 200
        · exact ⟨0, [], by omega, by simp, by
            rw [fetchLoop_ok net url _ w r hr hn h200]; simp [retried], Or.inl rfl⟩
        · exact ⟨0, [.close], by omega, by simp, by
            rw [fetchLoop_status net url _ w r hr hn h200 h429]; simp [retried], Or.inr rfl⟩

/-- Requests of a whole fetch: between one and `maxRetries` of them, all for
the URL given. -/
theorem fetch_requestedURLs (net : Transport) (url : String) (w : World) :
    ∃ n, 1 ≤ n ∧ n ≤ maxRetries ∧
      requestedURLs (fetchDataWithRetry net url w).2 =
        requestedURLs w ++ List.replicate n url := by
  obtain ⟨k, tail, hk, _, htr, htail⟩ := fetchLoop_shape net url (maxRetries - 1) 0 w (by simp)
  refine ⟨k + 1, by omega, by simp [maxRetries] at hk ⊢; omega, ?_⟩
  rw [fetchDataWithRetry, htr, requestedURLs_append, requestedURLs_append, requestedURLs_retried,
    List.append_assoc]
  congr 1
  rw [List.replicate_add k 1 url]
  congr 1
  rcases htail with h | h <;> simp [h, requestedURLs]

/-! ## The retrying fetch -/

/-- C1 (the code departs from the claim): when every request is answered by
429, `fetchDataWithRetry` issues five requests and then hands the fifth 429
response back as a success; the error built after the loop is not returned. -/
theorem C1_fifth_429_returned_as_success (url : String) (w : World) :
    fetchDataWithRetry always429 url w =
      (.ok ⟨429, ⟨"Too Many Requests", none⟩⟩, w ++ retried url 4 ++ [.get url]) ∧
    requests (fetchDataWithRetry always429 url w).2 = requests w + 5 ∧
    (fetchDataWithRetry always429 url w).1 ≠ .error (exhaustedError url) := by
  have h : fetchDataWithRetry always429 url w =
      (.ok ⟨429, ⟨"Too Many Requests", none⟩⟩, w ++ retried url 4 ++ [.get url]) := by
    rw [fetchDataWithRetry, fetchLoop_retried always429 url 4 0 w (by decide)
      (fun i _ => by simp [always429, reply, answered429])]
    exact fetchLoop_last429 always429 url _ _ rfl rfl
  refine ⟨h, ?_, ?_⟩
  · rw [h]
    simp only [requests_append, requests_retried, requests_get url [] (Or.inl rfl)]
  · rw [h]
    simp

/-- C2: if the first `k < maxRetries` responses are 429 and the next one is
200, `fetchDataWithRetry` returns that response without error; the log grows
by `k` retried attempts (each: request, notice, close, sleep of 2 seconds)
followed by one request, so `k + 1` requests and `k` sleeps are made. -/
theorem C2_success_after_k_retries (net : Transport) (url : String) (w : World) (k : Nat)
    (resp : Response) (hk : k < maxRetries)
    (h429 : ∀ i, i < k → answered429 (net (requests w + i) url) = true)
    (hresp : net (requests w + k) url = .resp resp) (h200 : resp.StatusCode = 200) :
    (fetchDataWithRetry net url w).1 = .ok resp ∧
    (fetchDataWithRetry net url w).2 = w ++ retried url k ++ [.get url] ∧
    requests (fetchDataWithRetry net url w).2 = requests w + (k + 1) ∧
    sleeps (fetchDataWithRetry net url w).2 = sleeps w + k ∧
    (∀ s, Event.sleep s ∈ retried url k ++ .get url :: [] → s = 2) := by
  have hk4 : 0 + k ≤ maxRetries - 1 := by simp [maxRetries] at hk ⊢; omega
  have h : fetchDataWithRetry net url w = (.ok resp, w ++ retried url k ++ [.get url]) := by
    rw [fetchDataWithRetry, fetchLoop_retried net url k 0 w hk4 h429]
    apply fetchLoop_ok net url _ _ resp (by simpa using hk) _ h200
    rw [requests_append, requests_retried]
    exact hresp
  refine ⟨by rw [h], by rw [h], ?_, ?_, ?_⟩
  · rw [h]
    simp only [requests_append, requests_retried, requests_get url [] (Or.inl rfl)]
    omega
  · rw [h]
    simp only [sleeps_append, sleeps_retried, sleeps_get url [] (Or.inl rfl)]
    omega
  · intro s hs
    exact sleep_mem_attempts url k [] s (Or.inl rfl) hs

/-- Witness for C2: two 429 responses, then 200. -/
theorem C2_success_after_k_retries_witness :
    (fetchDataWithRetry (scripted [reply 429 "", reply 429 "", reply 200 "page"]) "u" []).1 =
      .ok ⟨200, ⟨"page", none⟩⟩ ∧
    requests (fetchDataWithRetry (scripted [reply 429 "", reply 429 "", reply 200 "page"])
      "u" []).2 = 3 ∧
    sleeps (fetchDataWithRetry (scripted [reply 429 "", reply 429 "", reply 200 "page"])
      "u" []).2 = 2 := by
  have h := C2_success_after_k_retries
    (scripted [reply 429 "", reply 429 "", reply 200 "page"]) "u" [] 2
    ⟨200, ⟨"page", none⟩⟩ (by decide)
    (by intro i hi; interval_cases i <;> decide) (by decide) (by decide)
  exact ⟨h.1, by simpa [requests] using h.2.2.1, by simpa [sleeps] using h.2.2.2.1⟩

/-- C3: if the first `k < maxRetries` responses are 429 and the next one has a
status `s` other than 200 and 429, `fetchDataWithRetry` returns no response
and the error whose text reports the URL and `s`; the failing request is the
last one (`k + 1` in all) and only the closing of its body follows it. -/
theorem C3_other_status_is_terminal (net : Transport) (url : String) (w : World) (k : Nat)
    (resp : Response) (hk : k < maxRetries)
    (h429 : ∀ i, i < k → answered429 (net (requests w + i) url) = true)
    (hresp : net (requests w + k) url = .resp resp)
    (h200 : resp.StatusCode ≠ 200) (hne : resp.StatusCode ≠ 429) :
    (fetchDataWithRetry net url w).1 =
      .error ⟨"Failed to fetch data from " ++ url ++ ". Status code " ++
        toString resp.StatusCode ++ ", "⟩ ∧
    (fetchDataWithRetry net url w).2 = w ++ retried url k ++ [.get url, .close] ∧
    requests (fetchDataWithRetry net url w).2 = requests w + (k + 1) := by
  have hk4 : 0 + k ≤ maxRetries - 1 := by simp [maxRetries] at hk ⊢; omega
  have h : fetchDataWithRetry net url w =
      (.error (statusError url resp.StatusCode), w ++ retried url k ++ [.get url, .close]) := by
    rw [fetchDataWithRetry, fetchLoop_retried net url k 0 w hk4 h429]
    apply fetchLoop_status net url _ _ resp (by simpa using hk) _ h200 hne
    rw [requests_append, requests_retried]
    exact hresp
  refine ⟨by rw [h]; rfl, by rw [h], ?_⟩
  rw [h]
  simp only [requests_append, requests_retried, requests_get url [.close] (Or.inr rfl)]
  omega

/-- Witness for C3: a first response 500, and a 503 after two 429 responses. -/
theorem C3_other_status_is_terminal_witness :
    ((fetchDataWithRetry (scripted [reply 500 "", reply 200 "late"]) "u" []).1 =
        .error ⟨"Failed to fetch data from u. Status code 500, "⟩ ∧
      requests (fetchDataWithRetry (scripted [reply 500 "", reply 200 "late"]) "u" []).2 = 1) ∧
    ((fetchDataWithRetry (scripted [reply 429 "", reply 429 "", reply 503 ""]) "u" []).1 =
        .error ⟨"Failed to fetch data from u. Status code 503, "⟩ ∧
      requests (fetchDataWithRetry (scripted [reply 429 "", reply 429 "", reply 503 ""])
        "u" []).2 = 3) := by
  have h1 := C3_other_status_is_terminal (scripted [reply 500 "", reply 200 "late"]) "u" [] 0
    ⟨500, ⟨"", none⟩⟩ (by decide) (by intro i hi; omega) (by decide) (by decide) (by decide)
  have h2 := C3_other_status_is_terminal (scripted [reply 429 "", reply 429 "", reply 503 ""])
    "u" [] 2 ⟨503, ⟨"", none⟩⟩ (by decide) (by intro i hi; interval_cases i <;> decide)
    (by decide) (by decide) (by decide)
  refine ⟨⟨?_, by simpa [requests] using h1.2.2⟩, ⟨?_, by simpa [requests] using h2.2.2⟩⟩
  · rw [h1.1]; exact congrArg Except.error (congrArg GoError.mk (by decide))
  · rw [h2.1]; exact congrArg Except.error (congrArg GoError.mk (by decide))

/-- C4: if the first `k < maxRetries` responses are 429 and the next request
fails in the transport with error `e`, `fetchDataWithRetry` returns no
response and `e` itself; the failing request is the last entry of the log, so
nothing is slept and nothing is requested after it. -/
theorem C4_transport_error_is_returned (net : Transport) (url : String) (w : World) (k : Nat)
    (e : GoError) (hk : k < maxRetries)
    (h429 : ∀ i, i < k → answered429 (net (requests w + i) url) = true)
    (hfail : net (requests w + k) url = .fail e) :
    (fetchDataWithRetry net url w).1 = .error e ∧
    (fetchDataWithRetry net url w).2 = w ++ retried url k ++ [.get url] ∧
    requests (fetchDataWithRetry net url w).2 = requests w + (k + 1) ∧
    sleeps (fetchDataWithRetry net url w).2 = sleeps w + k := by
  have hk4 : 0 + k ≤ maxRetries - 1 := by simp [maxRetries] at hk ⊢; omega
  have h : fetchDataWithRetry net url w = (.error e, w ++ retried url k ++ [.get url]) := by
    rw [fetchDataWithRetry, fetchLoop_retried net url k 0 w hk4 h429]
    apply fetchLoop_fail net url _ _ e (by simpa using hk)
    rw [requests_append, requests_retried]
    exact hfail
  refine ⟨by rw [h], by rw [h], ?_, ?_⟩
  · rw [h]
    simp only [requests_append, requests_retried, requests_get url [] (Or.inl rfl)]
    omega
  · rw [h]
    simp only [sleeps_append, sleeps_retried, sleeps_get url [] (Or.inl rfl)]
    omega

/-- Witness for C4: a failure at the first request, and one after a 429. -/
theorem C4_transport_error_is_returned_witness :
    ((fetchDataWithRetry (scripted [.fail ⟨"no such host"⟩]) "u" []).1 =
        .error ⟨"no such host"⟩ ∧
      (fetchDataWithRetry (scripted [.fail ⟨"no such host"⟩]) "u" []).2 = [.get "u"]) ∧
    ((fetchDataWithRetry (scripted [reply 429 "", .fail ⟨"reset"⟩]) "u" []).1 =
        .error ⟨"reset"⟩ ∧
      requests (fetchDataWithRetry (scripted [reply 429 "", .fail ⟨"reset"⟩]) "u" []).2 = 2 ∧
      sleeps (fetchDataWithRetry (scripted [reply 429 "", .fail ⟨"reset"⟩]) "u" []).2 = 1) := by
  have h1 := C4_transport_error_is_returned (scripted [.fail ⟨"no such host"⟩]) "u" [] 0
    ⟨"no such host"⟩ (by decide) (by intro i hi; omega) (by decide)
  have h2 := C4_transport_error_is_returned (scripted [reply 429 "", .fail ⟨"reset"⟩]) "u" [] 1
    ⟨"reset"⟩ (by decide) (by intro i hi; interval_cases i; decide) (by decide)
  refine ⟨⟨h1.1, by simpa [retried] using h1.2.1⟩, h2.1, ?_, ?_⟩
  · simpa [requests] using h2.2.2.1
  · simpa [sleeps] using h2.2.2.2

/-- C10: whatever the remote side does, `fetchDataWithRetry` returns after
between 1 and `maxRetries` requests; every request but the last was answered
by 429; the sleeps number one less than the requests, at most 4, and each
lasts 2 seconds. -/
theorem C10_requests_and_sleeps_bounded (net : Transport) (url : String) (w : World) :
    ∃ (n : Nat) (new : World),
      (fetchDataWithRetry net url w).2 = w ++ new ∧
      requests new = n ∧ 1 ≤ n ∧ n ≤ maxRetries ∧
      (∀ i, i + 1 < n → answered429 (net (requests w + i) url) = true) ∧
      sleeps new = n - 1 ∧ sleeps new ≤ 4 ∧
      (∀ s, Event.sleep s ∈ new → s = 2) := by
  obtain ⟨k, tail, hk, hall, htr, htail⟩ := fetchLoop_shape net url (maxRetries - 1) 0 w (by simp)
  have hk4 : k ≤ 4 := by simpa [maxRetries] using hk
  refine ⟨k + 1, retried url k ++ .get url :: tail, ?_, ?_, by omega, ?_, ?_, ?_, ?_, ?_⟩
  · rw [fetchDataWithRetry, htr, List.append_assoc]
  · rw [requests_append, requests_retried, requests_get url tail htail]
  · simp [maxRetries]; omega
  · intro i hi
    exact hall i (by omega)
  · rw [sleeps_append, sleeps_retried, sleeps_get url tail htail]
    omega
  · rw [sleeps_append, sleeps_retried, sleeps_get url tail htail]
    omega
  · intro s hs
    exact sleep_mem_attempts url k tail s htail hs

/-! ## The page functions -/

theorem getJSON_requestedURLs (net : Transport) (category : String) (page : Int) (w : World) :
    requestedURLs (getJSON net category page w).2 =
      requestedURLs (fetchDataWithRetry net
        (hostname ++ "/" ++ category ++ onsaleParams ++ "=" ++ fmtD page) w).2 := by
  simp only [getJSON]
  rcases hf : fetchDataWithRetry net
    (hostname ++ "/" ++ category ++ onsaleParams ++ "=" ++ fmtD page) w with ⟨r, w1⟩
  cases r with
  | error err => rfl
  | ok resp =>
    cases hb : resp.Body.readErr <;>
      simp [ioReadAll, hb, requestedURLs_append, requestedURLs]

theorem getSales_requestedURLs (net : Transport) (link : String) (w : World) :
    requestedURLs (getSales net link w).2 =
      requestedURLs (fetchDataWithRetry net (hostname ++ link) w).2 := by
  simp only [getSales]
  rcases hf : fetchDataWithRetry net (hostname ++ link) w with ⟨r, w1⟩
  cases r with
  | error err => rfl
  | ok resp =>
    cases hb : resp.Body.readErr <;>
      simp [ioReadAll, hb, requestedURLs_append, requestedURLs]

theorem getGame_requestedURLs (net : Transport) (link : String) (w : World) :
    requestedURLs (getGame net link w).2 =
      requestedURLs (fetchDataWithRetry net
        (if !HasPrefix link "http://" && !HasPrefix link "https://" then hostname ++ link
          else link) w).2 := by
  simp only [getGame]
  rcases hf : fetchDataWithRetry net
    (if !HasPrefix link "http://" && !HasPrefix link "https://" then hostname ++ link
      else link) w with ⟨r, w1⟩
  cases r with
  | error err => rfl
  | ok resp =>
    cases hb : resp.Body.readErr <;>
      simp [ioReadAll, hb, requestedURLs_append, requestedURLs]

theorem hasPrefix_iff (s p : String) : HasPrefix s p = true ↔ ∃ rest, s = p ++ rest := by
  rw [HasPrefix, List.isPrefixOf_iff_prefix]
  constructor
  · rintro ⟨t, ht⟩
    exact ⟨⟨t⟩, String.ext (by simpa using ht.symm)⟩
  · rintro ⟨rest, rfl⟩
    exact ⟨rest.data, by simp⟩

/-- C7: every request `getJSON` issues goes to hostname, "/", the category,
"/on-sale?format=json&page=" and the page in decimal, and at least one request
is issued; for "games" and page 2 this is
"https://itch.io/games/on-sale?format=json&page=2". -/
theorem C7_listing_url (net : Transport) (category : String) (page : Int) (w : World) :
    (∃ n, 1 ≤ n ∧ requestedURLs (getJSON net category page w).2 =
      requestedURLs w ++ List.replicate n
        ("https://itch.io" ++ "/" ++ category ++ "/on-sale?format=json&page=" ++
          toString page)) ∧
    (∃ n, 1 ≤ n ∧ requestedURLs (getJSON net "games" 2 w).2 =
      requestedURLs w ++ List.replicate n
        "https://itch.io/games/on-sale?format=json&page=2") := by
  have key : ∀ (c : String) (p : Int),
      hostname ++ "/" ++ c ++ onsaleParams ++ "=" ++ fmtD p =
        "https://itch.io" ++ "/" ++ c ++ "/on-sale?format=json&page=" ++ toString p := by
    intro c p
    rw [String.append_assoc _ onsaleParams "="]
    rfl
  constructor
  · obtain ⟨n, h1, _, hn⟩ := fetch_requestedURLs net
      (hostname ++ "/" ++ category ++ onsaleParams ++ "=" ++ fmtD page) w
    exact ⟨n, h1, by rw [getJSON_requestedURLs, hn, key]⟩
  · obtain ⟨n, h1, _, hn⟩ := fetch_requestedURLs net
      (hostname ++ "/" ++ "games" ++ onsaleParams ++ "=" ++ fmtD 2) w
    refine ⟨n, h1, ?_⟩
    rw [getJSON_requestedURLs, hn]
    congr 2

/-- C8 (the code departs from the claim): `getSales` puts the hostname in
front of every link; for the absolute link "https://external.example/x" all
its requests go to "https://itch.iohttps://external.example/x". -/
theorem C8_sales_link_always_gets_hostname (net : Transport) (w : World) :
    ∃ n, 1 ≤ n ∧ requestedURLs (getSales net "https://external.example/x" w).2 =
      requestedURLs w ++ List.replicate n "https://itch.iohttps://external.example/x" := by
  obtain ⟨n, h1, _, hn⟩ := fetch_requestedURLs net (hostname ++ "https://external.example/x") w
  refine ⟨n, h1, ?_⟩
  rw [getSales_requestedURLs, hn]
  congr 2

/-- C9: every request `getGame` issues goes to the link itself when the link
starts with "http://" or "https://", and to "https://itch.io" followed by the
link otherwise; at least one request is issued. -/
theorem C9_game_link_url (net : Transport) (link : String) (w : World) :
    ((∃ rest, link = "http://" ++ rest) ∨ (∃ rest, link = "https://" ++ rest) →
      ∃ n, 1 ≤ n ∧ requestedURLs (getGame net link w).2 =
        requestedURLs w ++ List.replicate n link) ∧
    (¬ ((∃ rest, link = "http://" ++ rest) ∨ (∃ rest, link = "https://" ++ rest)) →
      ∃ n, 1 ≤ n ∧ requestedURLs (getGame net link w).2 =
        requestedURLs w ++ List.replicate n ("https://itch.io" ++ link)) := by
  constructor
  · intro h
    have hcond : (!HasPrefix link "http://" && !HasPrefix link "https://") = false := by
      rcases h with h | h
      · simp [(hasPrefix_iff link "http://").mpr h]
      · simp [(hasPrefix_iff link "https://").mpr h]
    obtain ⟨n, h1, _, hn⟩ := fetch_requestedURLs net link w
    refine ⟨n, h1, ?_⟩
    rw [getGame_requestedURLs, hcond]
    simpa using hn
  · intro h
    have h1 : HasPrefix link "http://" = false := by
      cases hp : HasPrefix link "http://" with
      | false => rfl
      | true => exact absurd (Or.inl ((hasPrefix_iff link "http://").mp hp)) h
    have h2 : HasPrefix link "https://" = false := by
      cases hp : HasPrefix link "https://" with
      | false => rfl
      | true => exact absurd (Or.inr ((hasPrefix_iff link "https://").mp hp)) h
    obtain ⟨n, hn1, _, hn⟩ := fetch_requestedURLs net (hostname ++ link) w
    refine ⟨n, hn1, ?_⟩
    rw [getGame_requestedURLs, h1, h2]
    simpa [hostname] using hn

/-- Witness for C9: the relative link "/sale/123" and the absolute link
"https://external.example/x". -/
theorem C9_game_link_url_witness :
    (∃ n, 1 ≤ n ∧ requestedURLs (getGame (scripted []) "/sale/123" []).2 =
      List.replicate n "https://itch.io/sale/123") ∧
    (∃ n, 1 ≤ n ∧ requestedURLs (getGame (scripted []) "https://external.example/x" []).2 =
      List.replicate n "https://external.example/x") := by
  constructor
  · obtain ⟨n, h1, hn⟩ := (C9_game_link_url (scripted []) "/sale/123" []).2 (by
      rintro (⟨rest, h⟩ | ⟨rest, h⟩)
      · have := congrArg (fun s => s.data.head?) h
        simp at this
      · have := congrArg (fun s => s.data.head?) h
        simp at this)
    refine ⟨n, h1, ?_⟩
    rw [hn]
    simp [requestedURLs]
  · obtain ⟨n, h1, hn⟩ := (C9_game_link_url (scripted []) "https://external.example/x" []).1
      (Or.inr ⟨"external.example/x", by decide⟩)
    exact ⟨n, h1, by simpa [requestedURLs] using hn⟩

/-! ## Collecting pages -/

/-- A first answer 200 whose body reads without error is what `getJSON`
returns, after one request. -/
theorem getJSON_ok (net : Transport) (category : String) (page : Int) (w : World)
    (r : Response)
    (h : net (requests w)
      (hostname ++ "/" ++ category ++ onsaleParams ++ "=" ++ fmtD page) = .resp r)
    (h200 : r.StatusCode = 200) (hread : r.Body.readErr = none) :
    getJSON net category page w =
      ((r.Body.data, none),
        w ++ [.get (hostname ++ "/" ++ category ++ onsaleParams ++ "=" ++ fmtD page), .close]) := by
  simp only [getJSON, fetchDataWithRetry]
  rw [fetchLoop_ok net _ 0 w r (by decide) h h200]
  simp [ioReadAll, hread]

/-- A transport failure at the first request is what `getJSON` returns. -/
theorem getJSON_fail (net : Transport) (category : String) (page : Int) (w : World)
    (e : GoError)
    (h : net (requests w)
      (hostname ++ "/" ++ category ++ onsaleParams ++ "=" ++ fmtD page) = .fail e) :
    getJSON net category page w =
      (("", some e),
        w ++ [.get (hostname ++ "/" ++ category ++ onsaleParams ++ "=" ++ fmtD page)]) := by
  simp only [getJSON, fetchDataWithRetry]
  rw [fetchLoop_fail net _ 0 w e (by decide) h]

theorem getContent_ok {Content : Type} (D : ContentDecl Content) (net : Transport)
    (category : String) (page : Int) (list : List Content) (w w1 : World)
    (json : String) (c : Content)
    (hj : getJSON net category page w = ((json, none), w1))
    (hd : D.FromJSON D.zero json = (c, none)) :
    getContent D net category page list w =
      ((decide (D.NumItems c < 36), none), list ++ [c], w1) := by
  simp [getContent, hj, hd, maxItems]

/-- C5: when each of the pages fetches and decodes without error, into the
records `cs`, calling `getContent` on them in order leaves the accumulator
equal to the initial one followed by `cs`, one record per page, and the call
for record `c` returns no error and `isLastPage` true exactly when
`c.NumItems < 36`; `GetGamesContent` is `getContent` for "games". -/
theorem C5_pages_appended_in_order {Content : Type} (D : ContentDecl Content)
    (net : Transport) (category : String) (pages : List Int) (L : List Content) (w : World)
    (cs : List Content) (h : PagesDecodeTo D net category pages w cs) :
    (getContentEach D net category pages L w).2.1 = L ++ cs ∧
    (getContentEach D net category pages L w).1 =
      cs.map (fun c => (decide (D.NumItems c < 36), none)) ∧
    cs.length = pages.length ∧
    (∀ (page : Int) (list : List Content) (v : World),
      GetGamesContent D net page list v = getContent D net "games" page list v) := by
  refine ⟨?_, ?_, ?_, fun _ _ _ => rfl⟩
  · induction pages generalizing L w cs with
    | nil => simp [PagesDecodeTo] at h; simp [getContentEach, h]
    | cons p ps ih =>
      obtain ⟨json, w1, c, rest, hj, hd, hcs, hrest⟩ := h
      simp only [getContentEach, getContent_ok D net category p L w w1 json c hj hd]
      rw [ih (L ++ [c]) w1 rest hrest, hcs]
      simp
  · induction pages generalizing L w cs with
    | nil => simp [PagesDecodeTo] at h; simp [getContentEach, h]
    | cons p ps ih =>
      obtain ⟨json, w1, c, rest, hj, hd, hcs, hrest⟩ := h
      simp only [getContentEach, getContent_ok D net category p L w w1 json c hj hd]
      rw [ih (L ++ [c]) w1 rest hrest, hcs]
      simp
  · induction pages generalizing w cs with
    | nil => simp [PagesDecodeTo] at h; simp [h]
    | cons p ps ih =>
      obtain ⟨json, w1, c, rest, hj, hd, hcs, hrest⟩ := h
      rw [hcs, List.length_cons, List.length_cons, ih w1 rest hrest]

/-- Witness for C5: three pages of 36, 36 and 20 items. -/
theorem C5_pages_appended_in_order_witness :
    (getContentEach countOnly (scripted [reply 200 "36", reply 200 "36", reply 200 "20"])
      "games" [1, 2, 3] [] []).1 = [(false, none), (false, none), (true, none)] ∧
    (getContentEach countOnly (scripted [reply 200 "36", reply 200 "36", reply 200 "20"])
      "games" [1, 2, 3] [] []).2.1 = [36, 36, 20] := by
  have hdecode : PagesDecodeTo countOnly
      (scripted [reply 200 "36", reply 200 "36", reply 200 "20"]) "games" [1, 2, 3] []
      [36, 36, 20] :=
    ⟨"36", _, 36, [36, 20],
      getJSON_ok _ "games" 1 [] ⟨200, ⟨"36", none⟩⟩ (by decide) rfl rfl, by decide, rfl,
     "36", _, 36, [20],
      getJSON_ok _ "games" 2 _ ⟨200, ⟨"36", none⟩⟩ (by decide) rfl rfl, by decide, rfl,
     "20", _, 20, [],
      getJSON_ok _ "games" 3 _ ⟨200, ⟨"20", none⟩⟩ (by decide) rfl rfl, by decide, rfl,
     rfl⟩
  have h := C5_pages_appended_in_order countOnly
    (scripted [reply 200 "36", reply 200 "36", reply 200 "20"]) "games" [1, 2, 3] [] []
    [36, 36, 20] hdecode
  refine ⟨?_, ?_⟩
  · rw [h.2.1]; decide
  · rw [h.1]; rfl

/-- C6: when `getJSON` returns error `e`, or returns a body that `FromJSON`
rejects with error `e`, `getContent` returns `e` with `isLastPage` false and
hands the accumulator back as it received it. -/
theorem C6_failure_leaves_accumulator {Content : Type} (D : ContentDecl Content)
    (net : Transport) (category : String) (page : Int) (list : List Content) (w : World)
    (e : GoError)
    (h : (getJSON net category page w).1.2 = some e ∨
      ∃ (json : String) (c : Content), (getJSON net category page w).1 = (json, none) ∧
        D.FromJSON D.zero json = (c, some e)) :
    (getContent D net category page list w).1 = (false, some e) ∧
    (getContent D net category page list w).2.1 = list := by
  rcases hj : getJSON net category page w with ⟨⟨json, err⟩, w1⟩
  rw [hj] at h
  rcases h with h | ⟨json2, c, h1, h2⟩
  · simp only at h
    subst h
    simp [getContent, hj]
  · simp only [Prod.mk.injEq] at h1
    obtain ⟨rfl, rfl⟩ := h1
    simp [getContent, hj, h2]

/-- Witness for C6: a transport failure, and a body that does not decode; the
accumulator holds one earlier page in both. -/
theorem C6_failure_leaves_accumulator_witness :
    ((getContent countOnly (scripted [.fail ⟨"no such host"⟩]) "games" 2 [36] []).1 =
        (false, some ⟨"no such host"⟩) ∧
      (getContent countOnly (scripted [.fail ⟨"no such host"⟩]) "games" 2 [36] []).2.1 =
        [36]) ∧
    ((getContent countOnly (scripted [reply 200 "<html>"]) "games" 2 [36] []).1 =
        (false, some ⟨"invalid character looking for beginning of value"⟩) ∧
      (getContent countOnly (scripted [reply 200 "<html>"]) "games" 2 [36] []).2.1 = [36]) := by
  constructor
  · apply C6_failure_leaves_accumulator
    left
    rw [getJSON_fail _ "games" 2 [] ⟨"no such host"⟩ (by decide)]
  · apply C6_failure_leaves_accumulator
    right
    refine ⟨"<html>", 0, ?_, by decide⟩
    rw [getJSON_ok _ "games" 2 [] ⟨200, ⟨"<html>", none⟩⟩ (by decide) rfl rfl]

end Ditch
